import Mathlib

/-!
Shallow embedding of the argonOneUpLidMonitor daemon
(src/argonOneUpLidMonitor.cxx, src/argonOneUpLidMonitor.h): the lid-state
classifier, the configuration reader `getShutdownTimeout`, and the event loop
of `lidMonitor`, together with theorems about their behaviour.
-/

namespace ArgonOneUp

/-- Lid state enumeration from the source (`enum class LidAction`). -/
inductive LidAction where
  | UNKNOWN
  | OPENED
  | CLOSED
deriving DecidableEq, Repr

/-- Underlying value of `gpiod::edge_event::event_type::RISING_EDGE`. -/
def RISING_EDGE : Nat := 1

/-- Underlying value of `gpiod::edge_event::event_type::FALLING_EDGE`. -/
def FALLING_EDGE : Nat := 2

/-- Embedding of `eventTypeToLidAction` (argonOneUpLidMonitor.cxx lines
127-140): a switch on the edge-event type, RISING_EDGE to OPENED, FALLING_EDGE
to CLOSED, with a default branch returning UNKNOWN.  Edge-event types are
modelled by the underlying integer value of the C++ enumeration, so that the
default branch of the switch is represented faithfully. -/
def eventTypeToLidAction (eventType : Nat) : LidAction :=
  if eventType = RISING_EDGE then .OPENED
  else if eventType = FALLING_EDGE then .CLOSED
  else .UNKNOWN

/-- The whitespace characters recognised by `std::isspace` in the C locale
(and by `\s` of `std::regex` over narrow characters): space, tab, newline,
vertical tab, form feed, carriage return. -/
def isSpaceChar (c : Char) : Bool :=
  c == ' ' || c == '\t' || c == '\n' || c == '\x0b' || c == '\x0c' || c == '\r'

/-- Embedding of `trim` (argonOneUpLidMonitor.cxx lines 331-344): remove
leading and trailing whitespace; a line of only whitespace becomes empty. -/
def trim (s : List Char) : List Char :=
  ((s.dropWhile isSpaceChar).reverse.dropWhile isSpaceChar).reverse

/-- The configuration key, `lidshutdownsecs`, as a character list. -/
def keyChars : List Char := "lidshutdownsecs".toList

/-- Boolean prefix test on character lists (used for the `starts_with("#")`
check and for matching the literal key inside the regex). -/
def startsWithList : List Char → List Char → Bool
  | [], _ => true
  | _ :: _, [] => false
  | p :: ps, c :: cs => p == c && startsWithList ps cs

/-- One attempt to match the regex `\s*lidshutdownsecs\s*=\s*(\d+)` with the
key anchored at the head of `cs`: the literal key, then optional whitespace,
`=`, optional whitespace, and a maximal nonempty digit run, whose characters
are returned as the capture.  (The greedy `\s*` never consumes the `=` or a
digit, so drop-whitespace-then-check is exact.) -/
def matchKeyAt (cs : List Char) : Option (List Char) :=
  if startsWithList keyChars cs then
    match (cs.drop keyChars.length).dropWhile isSpaceChar with
    | '=' :: rest2 =>
      let digits := (rest2.dropWhile isSpaceChar).takeWhile Char.isDigit
      if digits = [] then none else some digits
    | _ => none
  else none

/-- Embedding of `std::regex_search` with the pattern above: try the key at
every successive position of the line (leftmost match wins), returning the
captured digit run of the first position at which the whole pattern matches.
The leading `\s*` of the pattern adds nothing under search semantics, since
every start position is tried anyway. -/
def searchKey : List Char → Option (List Char)
  | [] => none
  | c :: cs =>
    match matchKeyAt (c :: cs) with
    | some ds => some ds
    | none => searchKey cs

/-- Numeric value of a digit run, as `std::stoul` computes it before its
range check. -/
def digitsVal (ds : List Char) : Nat :=
  ds.foldl (fun acc c => acc * 10 + (c.toNat - 48)) 0

/-- `ULONG_MAX` on the 64-bit target: `std::stoul` throws `out_of_range`
for values above this bound. -/
def ULONG_MAX : Nat := 2 ^ 64 - 1

/-- Conversion of the parsed `unsigned long` to the signed 64-bit
representation of `std::chrono::seconds` (modular, per C++20). -/
def toInt64 (n : Nat) : Int :=
  if n < 2 ^ 63 then (n : Int) else (n : Int) - 2 ^ 64

/-- Result of the configuration read: the returned timeout in seconds and
whether the parse-error branch (the `catch` in `getShutdownTimeout`) logged
an error. -/
structure ConfigResult where
  timeout : Int
  errorLogged : Bool
deriving DecidableEq, Repr

/-- Embedding of the line loop of `getShutdownTimeout` (argonOneUpLidMonitor.cxx
lines 358-393): each line is trimmed; lines starting with `#` and empty lines
are skipped; the first line on which the regex search succeeds is parsed with
`std::stoul` and its value returned (first match wins); a value above
`ULONG_MAX` throws, is caught, logs an error and yields 0; if no line matches,
the result is 0. -/
def readConfigLines : List (List Char) → ConfigResult
  | [] => ⟨0, false⟩
  | l :: ls =>
    let t := trim l
    if startsWithList ['#'] t || t.isEmpty then readConfigLines ls
    else
      match searchKey t with
      | none => readConfigLines ls
      | some ds =>
        if digitsVal ds ≤ ULONG_MAX then ⟨toInt64 (digitsVal ds), false⟩
        else ⟨0, true⟩

/-- Embedding of `getShutdownTimeout` (argonOneUpLidMonitor.cxx lines
348-398).  The file system is abstracted as `Option (List String)`: `none`
when the file is absent or cannot be opened (both return 0 seconds), `some
lines` for its contents. -/
def getShutdownTimeout : Option (List String) → ConfigResult
  | none => ⟨0, false⟩
  | some lines => readConfigLines (lines.map String.toList)

/-- What one iteration of the event loop observes from
`wait_edge_events(1s)`: either one buffered edge event was read (the loop
reads exactly one event per iteration, `read_edge_events(buffer, 1)` with a
buffer of capacity one), or the one-second wait timed out. -/
inductive PollResult where
  | event (eventType : Nat)
  | timedOut
deriving DecidableEq, Repr

/-- The environment of one loop iteration: the value of the `s_run` flag at
the `while` test, the poll outcome, the `steady_clock` reading for this
iteration, and the timeout `getShutdownTimeout()` would return if called at
this instant (the configuration file may change between reads). -/
structure Tick where
  run : Bool
  poll : PollResult
  now : Int
  cfg : Int
deriving DecidableEq, Repr

/-- The local state of `lidMonitor`: `shutdownTimeout`, `lidClosedTime`
(steady-clock reading) and the current `action` (lid state). -/
structure MonState where
  shutdownTimeout : Int
  lidClosedTime : Int
  action : LidAction
deriving DecidableEq, Repr

/-- How the loop left off: still iterating when the supplied trace ran out,
exited because `s_run` was observed false, or broke out right after invoking
the shutdown command. -/
inductive Outcome where
  | running
  | exited
  | shutdownInvoked
deriving DecidableEq, Repr

/-- Result of running the loop on a trace: final state, number of
`::system(shutdownCommand)` invocations, how the loop stopped, and the number
of `while`-iteration attempts consumed from the trace. -/
structure RunResult where
  state : MonState
  shutdowns : Nat
  outcome : Outcome
  consumed : Nat
deriving DecidableEq, Repr

/-- The event branch of the loop body (argonOneUpLidMonitor.cxx lines
430-443): classify the event, and if the lid closed, reload the timeout from
configuration and record the close time; otherwise only the action changes. -/
def applyEvent (s : MonState) (t : Tick) (e : Nat) : MonState :=
  let a := eventTypeToLidAction e
  if a = .CLOSED then ⟨t.cfg, t.now, a⟩
  else ⟨s.shutdownTimeout, s.lidClosedTime, a⟩

/-- Account for one consumed loop iteration in a run result. -/
def bump (r : RunResult) : RunResult :=
  ⟨r.state, r.shutdowns, r.outcome, r.consumed + 1⟩

/-- Embedding of the `while (s_run)` loop of `lidMonitor`
(argonOneUpLidMonitor.cxx lines 424-460), driven by a trace of iteration
environments.  On an event: classify and update state via `applyEvent`.  On a
wait timeout: if the action is CLOSED and the timeout positive and the
elapsed closed time has reached the timeout, invoke the shutdown command and
break; otherwise iterate. -/
def runLoop (s : MonState) : List Tick → RunResult
  | [] => ⟨s, 0, .running, 0⟩
  | t :: ts =>
    if t.run then
      match t.poll with
      | .event e => bump (runLoop (applyEvent s t e) ts)
      | .timedOut =>
        if s.action = .CLOSED ∧ 0 < s.shutdownTimeout then
          if s.shutdownTimeout ≤ t.now - s.lidClosedTime then
            ⟨s, 1, .shutdownInvoked, 1⟩
          else bump (runLoop s ts)
        else bump (runLoop s ts)
    else ⟨s, 0, .exited, 1⟩

/-- Account for `n` consumed loop iterations in a run result. -/
def addC (n : Nat) (r : RunResult) : RunResult :=
  ⟨r.state, r.shutdowns, r.outcome, n + r.consumed⟩

lemma addC_zero (r : RunResult) : addC 0 r = r := by
  simp [addC]

lemma bump_addC (n : Nat) (r : RunResult) : bump (addC n r) = addC (n + 1) r := by
  simp [bump, addC]
  omega

lemma shutdowns_eq_zero_of_running :
    ∀ (ts : List Tick) (s : MonState),
    (runLoop s ts).outcome = Outcome.running → (runLoop s ts).shutdowns = 0 := by
  intro ts
  induction ts with
  | nil => intro s _; simp [runLoop]
  | cons t ts ih =>
      intro s h
      by_cases hrun : t.run
      · cases hpoll : t.poll with
        | event e =>
            simp [runLoop, hrun, hpoll, bump] at h ⊢
            exact ih _ h
        | timedOut =>
            by_cases hguard : s.action = LidAction.CLOSED ∧ 0 < s.shutdownTimeout
            · by_cases hfire : s.shutdownTimeout ≤ t.now - s.lidClosedTime
              · simp [runLoop, hrun, hpoll, hguard, hfire] at h
              · simp [runLoop, hrun, hpoll, hguard, hfire, bump] at h ⊢
                exact ih _ h
            · simp [runLoop, hrun, hpoll, hguard, bump] at h ⊢
              exact ih _ h
      · simp [runLoop, hrun] at h

lemma consumed_eq_length_of_running :
    ∀ (ts : List Tick) (s : MonState),
    (runLoop s ts).outcome = Outcome.running → (runLoop s ts).consumed = ts.length := by
  intro ts
  induction ts with
  | nil => intro s _; simp [runLoop]
  | cons t ts ih =>
      intro s h
      by_cases hrun : t.run
      · cases hpoll : t.poll with
        | event e =>
            simp [runLoop, hrun, hpoll, bump] at h ⊢
            exact ih _ h
        | timedOut =>
            by_cases hguard : s.action = LidAction.CLOSED ∧ 0 < s.shutdownTimeout
            · by_cases hfire : s.shutdownTimeout ≤ t.now - s.lidClosedTime
              · simp [runLoop, hrun, hpoll, hguard, hfire] at h
              · simp [runLoop, hrun, hpoll, hguard, hfire, bump] at h ⊢
                exact ih _ h
            · simp [runLoop, hrun, hpoll, hguard, bump] at h ⊢
              exact ih _ h
      · simp [runLoop, hrun] at h

lemma runLoop_append_of_running :
    ∀ (ts1 : List Tick) (s : MonState) (ts2 : List Tick),
    (runLoop s ts1).outcome = Outcome.running →
    runLoop s (ts1 ++ ts2) = addC ts1.length (runLoop (runLoop s ts1).state ts2) := by
  intro ts1
  induction ts1 with
  | nil => intro s ts2 _; simp [runLoop, addC_zero]
  | cons t ts ih =>
      intro s ts2 h
      by_cases hrun : t.run
      · cases hpoll : t.poll with
        | event e =>
            have h' : (runLoop (applyEvent s t e) ts).outcome = Outcome.running := by
              simpa [runLoop, hrun, hpoll, bump] using h
            calc runLoop s ((t :: ts) ++ ts2)
                = bump (runLoop (applyEvent s t e) (ts ++ ts2)) := by
                  simp [runLoop, hrun, hpoll]
              _ = bump (addC ts.length (runLoop (runLoop (applyEvent s t e) ts).state ts2)) := by
                  rw [ih _ _ h']
              _ = addC (t :: ts).length (runLoop (runLoop s (t :: ts)).state ts2) := by
                  rw [bump_addC]
                  simp [runLoop, hrun, hpoll, bump]
        | timedOut =>
            by_cases hguard : s.action = LidAction.CLOSED ∧ 0 < s.shutdownTimeout
            · by_cases hfire : s.shutdownTimeout ≤ t.now - s.lidClosedTime
              · exfalso
                simp [runLoop, hrun, hpoll, hguard, hfire] at h
              · have h' : (runLoop s ts).outcome = Outcome.running := by
                  simpa [runLoop, hrun, hpoll, hguard, hfire, bump] using h
                calc runLoop s ((t :: ts) ++ ts2)
                    = bump (runLoop s (ts ++ ts2)) := by
                      simp [runLoop, hrun, hpoll, hguard, hfire]
                  _ = bump (addC ts.length (runLoop (runLoop s ts).state ts2)) := by
                      rw [ih _ _ h']
                  _ = addC (t :: ts).length (runLoop (runLoop s (t :: ts)).state ts2) := by
                      rw [bump_addC]
                      simp [runLoop, hrun, hpoll, hguard, hfire, bump]
            · have h' : (runLoop s ts).outcome = Outcome.running := by
                simpa [runLoop, hrun, hpoll, hguard, bump] using h
              calc runLoop s ((t :: ts) ++ ts2)
                  = bump (runLoop s (ts ++ ts2)) := by
                    simp [runLoop, hrun, hpoll, hguard]
                _ = bump (addC ts.length (runLoop (runLoop s ts).state ts2)) := by
                    rw [ih _ _ h']
                _ = addC (t :: ts).length (runLoop (runLoop s (t :: ts)).state ts2) := by
                    rw [bump_addC]
                    simp [runLoop, hrun, hpoll, hguard, bump]
      · exfalso
        simp [runLoop, hrun] at h

lemma runLoop_closed_stall (T t0 : Int) (hT : 0 < T) :
    ∀ (pre rest : List Tick),
    (∀ t ∈ pre, t.run = true ∧ t.poll = PollResult.timedOut ∧ t.now - t0 < T) →
    runLoop ⟨T, t0, LidAction.CLOSED⟩ (pre ++ rest) =
      addC pre.length (runLoop ⟨T, t0, LidAction.CLOSED⟩ rest) := by
  intro pre
  induction pre with
  | nil => intro rest _; simp [addC_zero]
  | cons t ts ih =>
      intro rest hpre
      obtain ⟨hrun, hpoll, hlt⟩ := hpre t (List.mem_cons_self t ts)
      have hrest := fun t' ht' => hpre t' (List.mem_cons_of_mem t ht')
      have hguard : (⟨T, t0, LidAction.CLOSED⟩ : MonState).action = LidAction.CLOSED ∧
          0 < (⟨T, t0, LidAction.CLOSED⟩ : MonState).shutdownTimeout := ⟨rfl, hT⟩
      have hfire : ¬ ((⟨T, t0, LidAction.CLOSED⟩ : MonState).shutdownTimeout ≤
          t.now - (⟨T, t0, LidAction.CLOSED⟩ : MonState).lidClosedTime) := by
        simpa using not_le.mpr hlt
      calc runLoop ⟨T, t0, LidAction.CLOSED⟩ ((t :: ts) ++ rest)
          = bump (runLoop ⟨T, t0, LidAction.CLOSED⟩ (ts ++ rest)) := by
            simp [runLoop, hrun, hpoll, hguard, hfire]
        _ = bump (addC ts.length (runLoop ⟨T, t0, LidAction.CLOSED⟩ rest)) := by
            rw [ih rest hrest]
        _ = addC (t :: ts).length (runLoop ⟨T, t0, LidAction.CLOSED⟩ rest) := by
            rw [bump_addC]
            simp

lemma runLoop_closed_fire (T t0 : Int) (hT : 0 < T) (ft : Tick) (post : List Tick)
    (hrun : ft.run = true) (hpoll : ft.poll = PollResult.timedOut)
    (hdl : T ≤ ft.now - t0) :
    runLoop ⟨T, t0, LidAction.CLOSED⟩ (ft :: post) =
      ⟨⟨T, t0, LidAction.CLOSED⟩, 1, Outcome.shutdownInvoked, 1⟩ := by
  have hguard : (⟨T, t0, LidAction.CLOSED⟩ : MonState).action = LidAction.CLOSED ∧
      0 < (⟨T, t0, LidAction.CLOSED⟩ : MonState).shutdownTimeout := ⟨rfl, hT⟩
  simp [runLoop, hrun, hpoll, hguard, hdl]

/-- C1: with a configured timeout `T > 0`, if the lid transitions to CLOSED at
time `t0` (a falling-edge event tick whose configuration read yields `T`) and
no further edge event occurs, the loop invokes the shutdown command at the
first poll tick whose steady-clock reading is at least `t0 + T`, exactly once,
and terminates immediately after: the ticks `pre` before the deadline (all
running, all wait timeouts, all with elapsed time below `T`) do not fire, the
first tick `ft` at or past the deadline fires, the shutdown count is exactly
one, and no tick of `post` is consumed. -/
theorem closed_then_quiet_fires_once_at_first_deadline_tick
    (s : MonState) (T t0 : Int) (pre post : List Tick) (ft : Tick)
    (hT : 0 < T)
    (hpre : ∀ t ∈ pre, t.run = true ∧ t.poll = PollResult.timedOut ∧ t.now - t0 < T)
    (hrun : ft.run = true) (hpoll : ft.poll = PollResult.timedOut)
    (hdl : T ≤ ft.now - t0) :
    runLoop s (⟨true, PollResult.event FALLING_EDGE, t0, T⟩ :: (pre ++ ft :: post)) =
      ⟨⟨T, t0, LidAction.CLOSED⟩, 1, Outcome.shutdownInvoked, pre.length + 2⟩ := by
  have hclosed : applyEvent s ⟨true, PollResult.event FALLING_EDGE, t0, T⟩ FALLING_EDGE =
      ⟨T, t0, LidAction.CLOSED⟩ := by
    simp [applyEvent, eventTypeToLidAction, RISING_EDGE, FALLING_EDGE]
  calc runLoop s (⟨true, PollResult.event FALLING_EDGE, t0, T⟩ :: (pre ++ ft :: post))
      = bump (runLoop ⟨T, t0, LidAction.CLOSED⟩ (pre ++ ft :: post)) := by
        simp [runLoop, hclosed]
    _ = bump (addC pre.length (runLoop ⟨T, t0, LidAction.CLOSED⟩ (ft :: post))) := by
        rw [runLoop_closed_stall T t0 hT pre (ft :: post) hpre]
    _ = ⟨⟨T, t0, LidAction.CLOSED⟩, 1, Outcome.shutdownInvoked, pre.length + 2⟩ := by
        rw [runLoop_closed_fire T t0 hT ft post hrun hpoll hdl]
        simp [bump, addC]

theorem closed_then_quiet_fires_once_witness :
    runLoop ⟨0, 0, LidAction.UNKNOWN⟩
      (⟨true, PollResult.event FALLING_EDGE, 0, 2⟩ ::
        ([⟨true, PollResult.timedOut, 1, 2⟩] ++ ⟨true, PollResult.timedOut, 2, 2⟩ ::
          [⟨true, PollResult.timedOut, 3, 2⟩])) =
      ⟨⟨2, 0, LidAction.CLOSED⟩, 1, Outcome.shutdownInvoked, 3⟩ :=
  closed_then_quiet_fires_once_at_first_deadline_tick
    ⟨0, 0, LidAction.UNKNOWN⟩ 2 0
    [⟨true, PollResult.timedOut, 1, 2⟩] [⟨true, PollResult.timedOut, 3, 2⟩]
    ⟨true, PollResult.timedOut, 2, 2⟩
    (by decide) (by decide) (by decide) (by decide) (by decide)

/-- C2: if the configured timeout is 0 seconds -- the state starts with
`shutdownTimeout = 0` and every configuration read during the run yields 0 --
the shutdown command is never invoked, whatever the trace does and however
long the lid stays CLOSED: the guard `shutdownTimeout > 0s` in the wait-timeout
branch disables the check before any elapsed-time comparison is made. -/
theorem zero_timeout_never_fires :
    ∀ (ts : List Tick) (s : MonState),
    s.shutdownTimeout = 0 → (∀ t ∈ ts, t.cfg = 0) →
    (runLoop s ts).shutdowns = 0 ∧ (runLoop s ts).outcome ≠ Outcome.shutdownInvoked := by
  intro ts
  induction ts with
  | nil => intro s _ _; simp [runLoop]
  | cons t ts ih =>
      intro s hs hcfg
      have hcfg0 : t.cfg = 0 := hcfg t (List.mem_cons_self t ts)
      have hcfgrest := fun t' ht' => hcfg t' (List.mem_cons_of_mem t ht')
      by_cases hrun : t.run
      · cases hpoll : t.poll with
        | event e =>
            have hs' : (applyEvent s t e).shutdownTimeout = 0 := by
              by_cases hc : eventTypeToLidAction e = LidAction.CLOSED
              · simp [applyEvent, hc, hcfg0]
              · simp [applyEvent, hc, hs]
            have := ih (applyEvent s t e) hs' hcfgrest
            simpa [runLoop, hrun, hpoll, bump] using this
        | timedOut =>
            have hguard : ¬ (s.action = LidAction.CLOSED ∧ 0 < s.shutdownTimeout) := by
              rw [hs]
              simp
            have := ih s hs hcfgrest
            simpa [runLoop, hrun, hpoll, hguard, bump] using this
      · simp [runLoop, hrun]

theorem zero_timeout_never_fires_witness :
    (runLoop ⟨0, 0, LidAction.CLOSED⟩
        [⟨true, PollResult.timedOut, 1000000, 0⟩,
         ⟨true, PollResult.timedOut, 2000000, 0⟩]).shutdowns = 0 ∧
    (runLoop ⟨0, 0, LidAction.CLOSED⟩
        [⟨true, PollResult.timedOut, 1000000, 0⟩,
         ⟨true, PollResult.timedOut, 2000000, 0⟩]).outcome ≠ Outcome.shutdownInvoked :=
  zero_timeout_never_fires
    [⟨true, PollResult.timedOut, 1000000, 0⟩, ⟨true, PollResult.timedOut, 2000000, 0⟩]
    ⟨0, 0, LidAction.CLOSED⟩ (by decide) (by decide)

/-- C3: on every edge event classified CLOSED the loop reloads the shutdown
timeout from the configuration read of that instant and resets the
lid-closed timestamp to the current steady-clock reading; the continuation of
the run equals the run from the freshly reset state, so nothing of the
previous state survives.  Consequently (second conjunct), reopening the lid
and re-closing it at time `t1` under configured timeout `T` makes the
shutdown fire at the first quiet tick with reading at least `t1 + T`,
whatever the earlier state held: no residual credit remains from a previous
closed interval. -/
theorem closed_event_reloads_timeout_and_resets_timestamp :
    (∀ (s : MonState) (t : Tick) (e : Nat) (rest : List Tick),
      t.run = true → t.poll = PollResult.event e →
      eventTypeToLidAction e = LidAction.CLOSED →
      runLoop s (t :: rest) =
        bump (runLoop ⟨t.cfg, t.now, LidAction.CLOSED⟩ rest)) ∧
    (∀ (s : MonState) (T t1 topen copen : Int) (pre post : List Tick) (ft : Tick),
      0 < T →
      (∀ t ∈ pre, t.run = true ∧ t.poll = PollResult.timedOut ∧ t.now - t1 < T) →
      ft.run = true → ft.poll = PollResult.timedOut → T ≤ ft.now - t1 →
      runLoop s (⟨true, PollResult.event RISING_EDGE, topen, copen⟩ ::
          ⟨true, PollResult.event FALLING_EDGE, t1, T⟩ :: (pre ++ ft :: post)) =
        ⟨⟨T, t1, LidAction.CLOSED⟩, 1, Outcome.shutdownInvoked, pre.length + 3⟩) := by
  constructor
  · intro s t e rest hrun hpoll he
    have happ : applyEvent s t e = ⟨t.cfg, t.now, LidAction.CLOSED⟩ := by
      simp [applyEvent, he]
    simp [runLoop, hrun, hpoll, happ]
  · intro s T t1 topen copen pre post ft hT hpre hrun hpoll hdl
    have hopen : applyEvent s ⟨true, PollResult.event RISING_EDGE, topen, copen⟩ RISING_EDGE =
        ⟨s.shutdownTimeout, s.lidClosedTime, LidAction.OPENED⟩ := by
      simp [applyEvent, eventTypeToLidAction]
    have hclosed : applyEvent ⟨s.shutdownTimeout, s.lidClosedTime, LidAction.OPENED⟩
        ⟨true, PollResult.event FALLING_EDGE, t1, T⟩ FALLING_EDGE =
        ⟨T, t1, LidAction.CLOSED⟩ := by
      simp [applyEvent, eventTypeToLidAction, RISING_EDGE, FALLING_EDGE]
    calc runLoop s (⟨true, PollResult.event RISING_EDGE, topen, copen⟩ ::
            ⟨true, PollResult.event FALLING_EDGE, t1, T⟩ :: (pre ++ ft :: post))
        = bump (bump (runLoop ⟨T, t1, LidAction.CLOSED⟩ (pre ++ ft :: post))) := by
          simp [runLoop, hopen, hclosed]
      _ = bump (bump (addC pre.length (runLoop ⟨T, t1, LidAction.CLOSED⟩ (ft :: post)))) := by
          rw [runLoop_closed_stall T t1 hT pre (ft :: post) hpre]
      _ = ⟨⟨T, t1, LidAction.CLOSED⟩, 1, Outcome.shutdownInvoked, pre.length + 3⟩ := by
          rw [runLoop_closed_fire T t1 hT ft post hrun hpoll hdl]
          simp [bump, addC]

theorem closed_event_reloads_and_resets_witness :
    runLoop ⟨100, -50, LidAction.CLOSED⟩
      (⟨true, PollResult.event RISING_EDGE, 10, 100⟩ ::
        ⟨true, PollResult.event FALLING_EDGE, 20, 3⟩ ::
          ([⟨true, PollResult.timedOut, 21, 3⟩] ++ ⟨true, PollResult.timedOut, 23, 3⟩ ::
            [⟨true, PollResult.timedOut, 24, 3⟩])) =
      ⟨⟨3, 20, LidAction.CLOSED⟩, 1, Outcome.shutdownInvoked, 4⟩ :=
  closed_event_reloads_timeout_and_resets_timestamp.2
    ⟨100, -50, LidAction.CLOSED⟩ 3 20 10 100
    [⟨true, PollResult.timedOut, 21, 3⟩] [⟨true, PollResult.timedOut, 24, 3⟩]
    ⟨true, PollResult.timedOut, 23, 3⟩
    (by decide) (by decide) (by decide) (by decide) (by decide)

/-- C5: once the run flag is observed false, the loop exits at that very
`while` test -- within one poll interval -- consuming none of the remaining
trace, and if the loop had not already fired during the preceding ticks (its
outcome so far is `running`, which in particular means the elapsed-closed
threshold had not been crossed at any earlier quiet tick), no shutdown
command is invoked at all. -/
theorem runflag_false_exits_without_action
    (s : MonState) (pre post : List Tick) (t : Tick)
    (hrunning : (runLoop s pre).outcome = Outcome.running) (hstop : t.run = false) :
    runLoop s (pre ++ t :: post) =
      ⟨(runLoop s pre).state, 0, Outcome.exited, pre.length + 1⟩ := by
  rw [runLoop_append_of_running pre s (t :: post) hrunning]
  have hexit : runLoop (runLoop s pre).state (t :: post) =
      ⟨(runLoop s pre).state, 0, Outcome.exited, 1⟩ := by
    simp [runLoop, hstop]
  rw [hexit]
  simp [addC]

theorem runflag_false_exits_witness :
    runLoop ⟨5, 0, LidAction.CLOSED⟩
      ([⟨true, PollResult.timedOut, 1, 5⟩] ++ ⟨false, PollResult.timedOut, 2, 5⟩ ::
        [⟨true, PollResult.timedOut, 100, 5⟩]) =
      ⟨⟨5, 0, LidAction.CLOSED⟩, 0, Outcome.exited, 2⟩ :=
  runflag_false_exits_without_action ⟨5, 0, LidAction.CLOSED⟩
    [⟨true, PollResult.timedOut, 1, 5⟩] [⟨true, PollResult.timedOut, 100, 5⟩]
    ⟨false, PollResult.timedOut, 2, 5⟩ (by decide) (by decide)

/-- C10: an edge event classified OPENED or UNKNOWN only updates the current
lid state: the continuation runs from a state with the same `shutdownTimeout`
and the same `lidClosedTime` as before, and the result does not depend on the
tick's configuration reading or clock reading, so no configuration re-read
and no timestamp write take effect on such events. -/
theorem open_or_unknown_event_only_updates_action
    (s : MonState) (t : Tick) (e : Nat) (rest : List Tick)
    (hrun : t.run = true) (hpoll : t.poll = PollResult.event e)
    (he : eventTypeToLidAction e ≠ LidAction.CLOSED) :
    runLoop s (t :: rest) =
      bump (runLoop ⟨s.shutdownTimeout, s.lidClosedTime, eventTypeToLidAction e⟩ rest) := by
  have happ : applyEvent s t e =
      ⟨s.shutdownTimeout, s.lidClosedTime, eventTypeToLidAction e⟩ := by
    simp [applyEvent, he]
  simp [runLoop, hrun, hpoll, happ]

theorem open_or_unknown_event_frame_witness :
    runLoop ⟨7, 3, LidAction.CLOSED⟩ [⟨true, PollResult.event RISING_EDGE, 50, 999⟩] =
      bump (runLoop ⟨7, 3, LidAction.OPENED⟩ []) :=
  open_or_unknown_event_only_updates_action ⟨7, 3, LidAction.CLOSED⟩
    ⟨true, PollResult.event RISING_EDGE, 50, 999⟩ RISING_EDGE []
    (by decide) (by decide) (by decide)

/-- C7: `eventTypeToLidAction` is a total pure function of the edge type: a
rising edge yields OPENED, a falling edge yields CLOSED, and every other
edge-type value falls into the default branch and yields UNKNOWN. -/
theorem eventTypeToLidAction_total_classification :
    eventTypeToLidAction RISING_EDGE = LidAction.OPENED ∧
    eventTypeToLidAction FALLING_EDGE = LidAction.CLOSED ∧
    ∀ e : Nat, e ≠ RISING_EDGE → e ≠ FALLING_EDGE →
      eventTypeToLidAction e = LidAction.UNKNOWN := by
  refine ⟨by decide, by decide, ?_⟩
  intro e h1 h2
  simp [eventTypeToLidAction, h1, h2]

theorem eventTypeToLidAction_total_witness :
    eventTypeToLidAction 5 = LidAction.UNKNOWN :=
  eventTypeToLidAction_total_classification.2.2 5 (by decide) (by decide)

/-- Underlying value of `gpiod::line::value::INACTIVE`. -/
def INACTIVE : Nat := 0

/-- Underlying value of `gpiod::line::value::ACTIVE`. -/
def ACTIVE : Nat := 1

/-- Modelled from the spec: `ArgonOneUpLidMonitor::valueTypeToLidState` is
declared in argonOneUpLidMonitor.h (lines 70-71) but its definition is not in
the sources; per the spec, an ACTIVE level maps to OPEN, an INACTIVE level to
CLOSED, and any other value to UNKNOWN.  Line levels are modelled by the
underlying integer value of the `gpiod::line::value` enumeration. -/
def valueTypeToLidState (v : Nat) : LidAction :=
  if v = ACTIVE then LidAction.OPENED
  else if v = INACTIVE then LidAction.CLOSED
  else LidAction.UNKNOWN

/-- Modelled from the spec: the initialization of the class version of the
monitor (its `lidMonitor` body is declared in argonOneUpLidMonitor.h but not
defined in the sources; the free-function `lidMonitor` of the .cxx performs
no initial level read).  Per the spec: load the timeout from configuration,
read the current line level, classify it via `valueTypeToLidState`, and if
the initial state is CLOSED with a positive timeout, record the lid-closed
timestamp as the current monotonic reading (otherwise it stays at the
default-constructed epoch, 0). -/
def initMonitor (cfgTimeout : Int) (level : Nat) (now : Int) : MonState :=
  let a := valueTypeToLidState level
  ⟨cfgTimeout, if a = LidAction.CLOSED ∧ 0 < cfgTimeout then now else 0, a⟩

/-- C4: at initialization the monitor classifies the current line level via
`valueTypeToLidState` (ACTIVE to OPENED, INACTIVE to CLOSED, anything else
UNKNOWN), stores the configured timeout, and records the lid-closed timestamp
as the current monotonic reading exactly when the initial state is CLOSED and
the timeout is positive. -/
theorem init_classifies_level_and_records_close_time :
    valueTypeToLidState ACTIVE = LidAction.OPENED ∧
    valueTypeToLidState INACTIVE = LidAction.CLOSED ∧
    (∀ v : Nat, v ≠ ACTIVE → v ≠ INACTIVE →
      valueTypeToLidState v = LidAction.UNKNOWN) ∧
    (∀ (cfgT : Int) (level : Nat) (now : Int),
      (initMonitor cfgT level now).action = valueTypeToLidState level ∧
      (initMonitor cfgT level now).shutdownTimeout = cfgT) ∧
    (∀ (cfgT : Int) (level : Nat) (now : Int),
      valueTypeToLidState level = LidAction.CLOSED → 0 < cfgT →
      (initMonitor cfgT level now).lidClosedTime = now) := by
  refine ⟨by decide, by decide, ?_, ?_, ?_⟩
  · intro v h1 h2
    simp [valueTypeToLidState, h1, h2]
  · intro cfgT level now
    exact ⟨rfl, rfl⟩
  · intro cfgT level now hc hT
    simp [initMonitor, hc, hT]

theorem init_records_close_time_witness :
    (initMonitor 30 INACTIVE 17).lidClosedTime = 17 :=
  init_classifies_level_and_records_close_time.2.2.2.2 30 INACTIVE 17 (by decide) (by decide)

lemma startsWithList_self_append : ∀ (p r : List Char), startsWithList p (p ++ r) = true := by
  intro p
  induction p with
  | nil => intro r; simp [startsWithList]
  | cons x xs ih => intro r; simp [startsWithList, ih]

lemma dropWhile_append_all {p : Char → Bool} :
    ∀ (b r : List Char), (∀ x ∈ b, p x = true) →
    (b ++ r).dropWhile p = r.dropWhile p := by
  intro b
  induction b with
  | nil => intro r _; rfl
  | cons x xs ih =>
      intro r h
      have hx : p x = true := h x (List.mem_cons_self x xs)
      have hxs := fun y hy => h y (List.mem_cons_of_mem x hy)
      simp [List.dropWhile_cons, hx, ih r hxs]

lemma dropWhile_cons_false {p : Char → Bool} (c : Char) (r : List Char)
    (h : p c = false) : (c :: r).dropWhile p = c :: r := by
  simp [List.dropWhile_cons, h]

lemma takeWhile_all {p : Char → Bool} :
    ∀ (d : List Char), (∀ x ∈ d, p x = true) → d.takeWhile p = d := by
  intro d
  induction d with
  | nil => intro _; rfl
  | cons x xs ih =>
      intro h
      have hx : p x = true := h x (List.mem_cons_self x xs)
      have hxs := fun y hy => h y (List.mem_cons_of_mem x hy)
      simp [List.takeWhile_cons, hx, ih hxs]

lemma not_space_of_digit (c : Char) (h : c.isDigit = true) : isSpaceChar c = false := by
  by_cases hs : isSpaceChar c = true
  · exfalso
    have hc : ((((c = ' ' ∨ c = '\t') ∨ c = '\n') ∨ c = '\x0b') ∨ c = '\x0c') ∨ c = '\r' := by
      simpa [isSpaceChar] using hs
    rcases hc with ((((rfl | rfl) | rfl) | rfl) | rfl) | rfl <;> revert h <;> decide
  · rw [Bool.not_eq_true] at hs
    exact hs

lemma matchKeyAt_space_head (c : Char) (cs : List Char) (h : isSpaceChar c = true) :
    matchKeyAt (c :: cs) = none := by
  have hc : ((((c = ' ' ∨ c = '\t') ∨ c = '\n') ∨ c = '\x0b') ∨ c = '\x0c') ∨ c = '\r' := by
    simpa [isSpaceChar] using h
  have hsw : startsWithList keyChars (c :: cs) = false := by
    have hkey : keyChars = 'l' :: "idshutdownsecs".toList := rfl
    rw [hkey]
    rcases hc with ((((rfl | rfl) | rfl) | rfl) | rfl) | rfl <;> simp [startsWithList]
  simp [matchKeyAt, hsw]

lemma searchKey_append_spaces :
    ∀ (a cs : List Char), (∀ x ∈ a, isSpaceChar x = true) →
    searchKey (a ++ cs) = searchKey cs := by
  intro a
  induction a with
  | nil => intro cs _; rfl
  | cons x xs ih =>
      intro cs h
      have hx : isSpaceChar x = true := h x (List.mem_cons_self x xs)
      have hxs := fun y hy => h y (List.mem_cons_of_mem x hy)
      simp [searchKey, matchKeyAt_space_head x _ hx, ih cs hxs]

lemma searchKey_of_match (cs ds : List Char) (h : matchKeyAt cs = some ds) :
    searchKey cs = some ds := by
  cases cs with
  | nil =>
      rw [(by decide : matchKeyAt ([] : List Char) = none)] at h
      cases h
  | cons c cs2 => simp [searchKey, h]

lemma matchKeyAt_pattern (b c d : List Char)
    (hb : ∀ x ∈ b, isSpaceChar x = true) (hc : ∀ x ∈ c, isSpaceChar x = true)
    (hne : d ≠ []) (hd : ∀ x ∈ d, Char.isDigit x = true) :
    matchKeyAt (keyChars ++ (b ++ '=' :: (c ++ d))) = some d := by
  have h1 : startsWithList keyChars (keyChars ++ (b ++ '=' :: (c ++ d))) = true :=
    startsWithList_self_append _ _
  have h2 : (keyChars ++ (b ++ '=' :: (c ++ d))).drop keyChars.length =
      b ++ '=' :: (c ++ d) := List.drop_left _ _
  have h3 : (b ++ '=' :: (c ++ d)).dropWhile isSpaceChar = '=' :: (c ++ d) := by
    rw [dropWhile_append_all b _ hb]
    exact dropWhile_cons_false _ _ (by decide)
  have h4 : (c ++ d).dropWhile isSpaceChar = d := by
    rw [dropWhile_append_all c d hc]
    obtain ⟨dh, dt, rfl⟩ := List.exists_cons_of_ne_nil hne
    exact dropWhile_cons_false _ _
      (not_space_of_digit dh (hd dh (List.mem_cons_self dh dt)))
  have h5 : d.takeWhile Char.isDigit = d := takeWhile_all d hd
  simp [matchKeyAt, h1, h2, h3, h4, h5, hne]

lemma readConfigLines_skip (l : List Char) (ls : List (List Char))
    (h : startsWithList ['#'] (trim l) = true ∨ (trim l).isEmpty = true ∨
      searchKey (trim l) = none) :
    readConfigLines (l :: ls) = readConfigLines ls := by
  rcases h with h | h | h
  · simp [readConfigLines, h]
  · simp [readConfigLines, h]
  · by_cases hc : (startsWithList ['#'] (trim l) || (trim l).isEmpty) = true
    · simp [readConfigLines, hc]
    · rw [Bool.not_eq_true] at hc
      simp [readConfigLines, hc, h]

lemma readConfigLines_all_skip :
    ∀ (ls : List (List Char)),
    (∀ l ∈ ls, startsWithList ['#'] (trim l) = true ∨ (trim l).isEmpty = true ∨
      searchKey (trim l) = none) →
    readConfigLines ls = ⟨0, false⟩ := by
  intro ls
  induction ls with
  | nil => intro _; rfl
  | cons l ls ih =>
      intro h
      rw [readConfigLines_skip l ls (h l (List.mem_cons_self l ls))]
      exact ih (fun y hy => h y (List.mem_cons_of_mem l hy))

/-- C6: `getShutdownTimeout` fails open.  It returns 0 seconds with no error
logged when the configuration file is absent or unopenable, and when every
line of the file is a comment, blank, or fails the key search; and when the
first matching line's captured digit run exceeds `ULONG_MAX`, `std::stoul`
throws, the handler logs an error, and 0 is returned. -/
theorem getShutdownTimeout_fails_open :
    getShutdownTimeout none = ⟨0, false⟩ ∧
    (∀ lines : List String,
      (∀ l ∈ lines, startsWithList ['#'] (trim l.toList) = true ∨
        (trim l.toList).isEmpty = true ∨ searchKey (trim l.toList) = none) →
      getShutdownTimeout (some lines) = ⟨0, false⟩) ∧
    (∀ (pre : List (List Char)) (l : List Char) (rest : List (List Char)) (ds : List Char),
      (∀ l2 ∈ pre, startsWithList ['#'] (trim l2) = true ∨ (trim l2).isEmpty = true ∨
        searchKey (trim l2) = none) →
      (startsWithList ['#'] (trim l) || (trim l).isEmpty) = false →
      searchKey (trim l) = some ds →
      ULONG_MAX < digitsVal ds →
      readConfigLines (pre ++ l :: rest) = ⟨0, true⟩) := by
  refine ⟨rfl, ?_, ?_⟩
  · intro lines h
    show readConfigLines (lines.map String.toList) = ⟨0, false⟩
    apply readConfigLines_all_skip
    intro l hl
    obtain ⟨x, hx, rfl⟩ := List.mem_map.mp hl
    exact h x hx
  · intro pre
    induction pre with
    | nil =>
        intro l rest ds _ hcond hsk hbig
        simp [readConfigLines, hcond, hsk, not_le.mpr hbig]
    | cons p ps ih =>
        intro l rest ds hpre hcond hsk hbig
        have hp := hpre p (List.mem_cons_self p ps)
        have hps := fun y hy => hpre y (List.mem_cons_of_mem p hy)
        rw [List.cons_append, readConfigLines_skip p _ hp]
        exact ih l rest ds hps hcond hsk hbig

theorem getShutdownTimeout_fails_open_witness :
    getShutdownTimeout (some ["foo", "key = maybe"]) = ⟨0, false⟩ :=
  getShutdownTimeout_fails_open.2.1 ["foo", "key = maybe"] (by decide)

/-- C8: configuration parsing is whitespace-insensitive and first-match-wins:
the three example lines each yield 30; every line of the shape optional
whitespace, `lidshutdownsecs`, optional whitespace, `=`, optional whitespace,
one or more digits is matched by the search with exactly those digits
captured; and once a line matches, the remaining lines have no effect on the
result (they are not read). -/
theorem config_whitespace_insensitive_first_match_wins :
    getShutdownTimeout (some ["lidshutdownsecs=30"]) = ⟨30, false⟩ ∧
    getShutdownTimeout (some ["  lidshutdownsecs = 30  "]) = ⟨30, false⟩ ∧
    getShutdownTimeout (some ["lidshutdownsecs\t=\t30"]) = ⟨30, false⟩ ∧
    (∀ a b c d : List Char,
      (∀ x ∈ a, isSpaceChar x = true) → (∀ x ∈ b, isSpaceChar x = true) →
      (∀ x ∈ c, isSpaceChar x = true) → d ≠ [] →
      (∀ x ∈ d, Char.isDigit x = true) →
      searchKey (a ++ (keyChars ++ (b ++ '=' :: (c ++ d)))) = some d) ∧
    (∀ (l : List Char) (ls ls2 : List (List Char)),
      (startsWithList ['#'] (trim l) || (trim l).isEmpty) = false →
      searchKey (trim l) ≠ none →
      readConfigLines (l :: ls) = readConfigLines (l :: ls2)) := by
  refine ⟨by decide, by decide, by decide, ?_, ?_⟩
  · intro a b c d ha hb hc hne hd
    rw [searchKey_append_spaces a _ ha]
    exact searchKey_of_match _ _ (matchKeyAt_pattern b c d hb hc hne hd)
  · intro l ls ls2 hcond hmatch
    cases hsk : searchKey (trim l) with
    | none => exact absurd hsk hmatch
    | some ds => simp [readConfigLines, hcond, hsk]

theorem config_pattern_witness :
    searchKey ([' '] ++ (keyChars ++ ([' ', '\t'] ++ '=' :: ([' '] ++ ['4', '2'])))) =
      some ['4', '2'] :=
  config_whitespace_insensitive_first_match_wins.2.2.2.1
    [' '] [' ', '\t'] [' '] ['4', '2']
    (by decide) (by decide) (by decide) (by decide) (by decide)

/-- C9: blank lines, and lines whose first non-whitespace character is `#`
(the trimmed line starts with `#`), are skipped by the configuration reader;
in particular a file containing only `# lidshutdownsecs=5` yields the
disabled default of 0 seconds. -/
theorem comment_and_blank_lines_skipped :
    getShutdownTimeout (some ["# lidshutdownsecs=5"]) = ⟨0, false⟩ ∧
    (∀ (l : List Char) (ls : List (List Char)),
      startsWithList ['#'] (trim l) = true ∨ (trim l).isEmpty = true →
      readConfigLines (l :: ls) = readConfigLines ls) := by
  refine ⟨by decide, ?_⟩
  intro l ls h
  exact readConfigLines_skip l ls (Or.imp_right Or.inl h)

theorem comment_blank_skipped_witness :
    readConfigLines ("   ".toList :: ["lidshutdownsecs=9".toList]) =
      readConfigLines ["lidshutdownsecs=9".toList] :=
  comment_and_blank_lines_skipped.2 "   ".toList ["lidshutdownsecs=9".toList]
    (by decide)

end ArgonOneUp
